import Mathlib

/-!
Verification of the dependency-injection runtime of `electron-modular`:
the `Container` resolution engine (src/@core/container.ts), the
dependency-token extractor (src/@core/utils/dependency-tokens.ts), the
module registration pipeline (src/@core/bootstrap/*) and the lazy
activation gate (registerLazyModule).

Modelling conventions (shallow embedding of the TypeScript source):
* JavaScript objects are identified by allocation ids (`Value := Nat`);
  reference equality is equality of ids.  `undefined` is `Option.none`,
  so a possibly-undefined JS value is `Option Value`.
* JS `Map`s are association lists; `Map.set` prepends, `Map.get` takes
  the most recent binding, which matches overwrite semantics.
* The runtime is single-threaded and cooperative; `async` code is
  embedded as explicit state passing.  A thrown error carries the state
  at the throw point (JS exceptions do not roll back container
  mutations), hence `Except (Err × State) _` result types.
* Recursion in `Container.resolve` is not structurally terminating in
  the source (no cycle detection, per the spec's open question), so the
  embedding uses explicit fuel; running out of fuel is the embedding's
  image of divergence/stack exhaustion and is distinct from every real
  error of the source.
-/

set_option autoImplicit false

namespace ElectronModular

/-- A JS class/constructor reference: an identity (`id`, object identity
of the function object) together with its `Function.name`.  Two distinct
classes may share a `name`. -/
structure Ctor where
  id : Nat
  name : String
deriving DecidableEq, Repr

/-- `TProviderToken` (src/@core/types/provider.ts): a class reference, a
string, or a unique symbol (identity `id` plus description). -/
inductive Token where
  | cls (c : Ctor)
  | str (s : String)
  | sym (id : Nat) (desc : String)
deriving DecidableEq, Repr

/-- Object identity of a JS value produced/stored by the container. -/
abbrev Value := Nat

/-- Association-list map with JS `Map` lookup semantics (latest binding
wins). -/
def mlookup {α β : Type} [DecidableEq α] : List (α × β) → α → Option β
  | [], _ => none
  | (k, v) :: rest, a => if k = a then some v else mlookup rest a

/-- `Map.set`: prepend, so `mlookup` sees the newest binding. -/
def aset {α β : Type} (l : List (α × β)) (k : α) (v : β) : List (α × β) :=
  (k, v) :: l

@[simp] theorem mlookup_nil {α β : Type} [DecidableEq α] (a : α) :
    mlookup ([] : List (α × β)) a = none := rfl

@[simp] theorem mlookup_cons {α β : Type} [DecidableEq α]
    (k : α) (v : β) (l : List (α × β)) (a : α) :
    mlookup ((k, v) :: l) a = if k = a then some v else mlookup l a := rfl

@[simp] theorem mlookup_aset_self {α β : Type} [DecidableEq α]
    (l : List (α × β)) (k : α) (v : β) :
    mlookup (aset l k v) k = some v := by
  simp [aset]

@[simp] theorem mlookup_aset_ne {α β : Type} [DecidableEq α]
    (l : List (α × β)) (k a : α) (v : β) (h : k ≠ a) :
    mlookup (aset l k v) a = mlookup l a := by
  simp [aset, h]

/-!
## Dependency-token extractor (src/@core/utils/dependency-tokens.ts)

`getDependencyTokens(target)` merges the compiler-emitted
`design:paramtypes` list with the per-parameter `@Inject` overrides
(`getInjectedTokens`, a `Record<number, Token>`), memoized per
constructor in a `WeakMap`.
-/

/-- Reflection metadata attached to constructors: the compiler-emitted
parameter-type list and the `@Inject` override table (index ↦ token,
keys unique since it is a JS object). -/
structure ReflectEnv where
  paramTypes : Ctor → List Token
  injected : Ctor → List (Nat × Token)

/-- The pure merge in `getDependencyTokens`: result positions are
`injectedTokens[index] ?? paramTypes[index]`, with length
`maxIndex + 1` where
`maxIndex = Math.max(paramTypes.length - 1, ...injectedIndexes, -1)`;
a negative `maxIndex` returns `paramTypes` unchanged (necessarily
empty).  Entries beyond `paramTypes.length` with no override are the
JS `undefined`, i.e. `none`. -/
def mergeDependencyTokens (base : List Token) (inj : List (Nat × Token)) :
    List (Option Token) :=
  let maxIndex : Int :=
    (inj.map (fun p => (p.1 : Int))).foldl max (max ((base.length : Int) - 1) (-1))
  if maxIndex < 0 then base.map some
  else (List.range (maxIndex + 1).toNat).map
    (fun i => (mlookup inj i).orElse (fun _ => base.get? i))

/-- The `WeakMap` memo table of `getDependencyTokens`. -/
abbrev DepCache := List (Ctor × List (Option Token))

/-- `getDependencyTokens` with its `WeakMap` memoization: a cache hit is
returned as-is, otherwise the merge is computed and stored. -/
def getDependencyTokens (env : ReflectEnv) (cache : DepCache) (target : Ctor) :
    List (Option Token) × DepCache :=
  match mlookup cache target with
  | some ts => (ts, cache)
  | none =>
      let ts := mergeDependencyTokens (env.paramTypes target) (env.injected target)
      (ts, aset cache target ts)

/-- `max(baseList.length, highest override index + 1)` — the length the
spec ascribes to the extractor's output (0 when there are no overrides
and the base list is empty). -/
def specDepLength (base : List Token) (inj : List (Nat × Token)) : Nat :=
  (inj.map (fun p => p.1 + 1)).foldl max base.length

theorem seed_le_foldl_max (l : List Int) (a : Int) : a ≤ l.foldl max a := by
  induction l generalizing a with
  | nil => exact le_rfl
  | cons x xs ih => exact le_trans (le_max_left a x) (ih (max a x))

theorem mem_le_foldl_max (l : List Int) (x : Int) (hx : x ∈ l) :
    ∀ a : Int, x ≤ l.foldl max a := by
  induction l with
  | nil => cases hx
  | cons y ys ih =>
      intro a
      rcases List.mem_cons.mp hx with h | h
      · subst h
        exact le_trans (le_max_right a x) (seed_le_foldl_max ys (max a x))
      · exact ih h (max a y)

theorem foldl_max_toNat (idxs : List Nat) (seed : Int) (hseed : -1 ≤ seed) :
    ((idxs.map (fun (i : Nat) => (i : Int))).foldl max seed + 1).toNat
      = idxs.foldl (fun a i => max a (i + 1)) ((seed + 1).toNat) := by
  induction idxs generalizing seed with
  | nil => simp
  | cons x xs ih =>
      simp only [List.map_cons, List.foldl_cons]
      rw [ih (max seed (x : Int)) (le_trans hseed (le_max_left _ _))]
      congr 1
      omega

theorem mergeDependencyTokens_maxIndex (base : List Token) (inj : List (Nat × Token)) :
    (((inj.map (fun p => (p.1 : Int))).foldl max
        (max ((base.length : Int) - 1) (-1)) + 1).toNat)
      = specDepLength base inj := by
  have hmap : inj.map (fun p => ((p.1 : Nat) : Int))
      = (inj.map (fun p => p.1)).map (fun (i : Nat) => (i : Int)) := by
    simp [List.map_map]
  have h := foldl_max_toNat (inj.map (fun p => p.1))
    (max ((base.length : Int) - 1) (-1)) (le_max_right _ _)
  rw [hmap, h]
  have hseed : ((max ((base.length : Int) - 1) (-1)) + 1).toNat = base.length := by
    omega
  rw [hseed, specDepLength]
  simp [List.foldl_map]

theorem mergeDependencyTokens_length (base : List Token) (inj : List (Nat × Token)) :
    (mergeDependencyTokens base inj).length = specDepLength base inj := by
  rw [mergeDependencyTokens]
  by_cases hneg :
      (inj.map (fun p => (p.1 : Int))).foldl max (max ((base.length : Int) - 1) (-1)) < 0
  · simp only [hneg, if_true, List.length_map]
    have hbig := seed_le_foldl_max (inj.map (fun p => (p.1 : Int)))
      (max ((base.length : Int) - 1) (-1))
    have hlen : base.length = 0 := by
      have := le_trans (le_max_left ((base.length : Int) - 1) (-1)) hbig
      omega
    have := mergeDependencyTokens_maxIndex base inj
    omega
  · simp only [hneg, if_false, List.length_map, List.length_range]
    exact mergeDependencyTokens_maxIndex base inj

theorem mergeDependencyTokens_get (base : List Token) (inj : List (Nat × Token))
    (i : Nat) (hi : i < specDepLength base inj) :
    (mergeDependencyTokens base inj)[i]?
      = some ((mlookup inj i).orElse (fun _ => base.get? i)) := by
  rw [mergeDependencyTokens]
  by_cases hneg :
      (inj.map (fun p => (p.1 : Int))).foldl max (max ((base.length : Int) - 1) (-1)) < 0
  · exfalso
    have := mergeDependencyTokens_maxIndex base inj
    omega
  · simp only [hneg, if_false]
    have hlen : ((inj.map (fun p => (p.1 : Int))).foldl max
        (max ((base.length : Int) - 1) (-1)) + 1).toNat = specDepLength base inj :=
      mergeDependencyTokens_maxIndex base inj
    rw [List.getElem?_map, List.getElem?_range (by omega)]
    rfl

/-- Every override index is inside the merge's output range. -/
theorem override_lt_specDepLength (base : List Token) (inj : List (Nat × Token))
    (i : Nat) (t : Token) (h : mlookup inj i = some t) :
    i < specDepLength base inj := by
  have hmem : (i : Int) ∈ inj.map (fun p => (p.1 : Int)) := by
    induction inj with
    | nil => simp [mlookup] at h
    | cons p ps ih =>
        rw [mlookup] at h
        by_cases hk : p.1 = i
        · simp [List.mem_cons, hk]
        · simp only [hk, if_false] at h
          exact List.mem_cons.mpr (Or.inr (ih h))
  have hle := mem_le_foldl_max (inj.map (fun p => (p.1 : Int))) (i : Int) hmem
    (max ((base.length : Int) - 1) (-1))
  have := mergeDependencyTokens_maxIndex base inj
  omega

/-- **C9.** `getDependencyTokens` returns a list of length
`max(baseList.length, highest override index + 1)`; position `i` holds
the explicit `@Inject` override when one exists at index `i` and
otherwise the (possibly undefined) base entry; and the result is
memoized per constructor, so a repeated call returns the stored list
with the memo table unchanged. -/
theorem C9_getDependencyTokens_merge_and_memo (env : ReflectEnv) (cache : DepCache)
    (target : Ctor) (hfresh : mlookup cache target = none) :
    (getDependencyTokens env cache target).1.length
        = specDepLength (env.paramTypes target) (env.injected target)
    ∧ (∀ i t, mlookup (env.injected target) i = some t →
        (getDependencyTokens env cache target).1[i]? = some (some t))
    ∧ (∀ i, i < (getDependencyTokens env cache target).1.length →
        mlookup (env.injected target) i = none →
        (getDependencyTokens env cache target).1[i]?
          = some ((env.paramTypes target).get? i))
    ∧ getDependencyTokens env (getDependencyTokens env cache target).2 target
        = getDependencyTokens env cache target := by
  have hrun : getDependencyTokens env cache target
      = (mergeDependencyTokens (env.paramTypes target) (env.injected target),
          aset cache target
            (mergeDependencyTokens (env.paramTypes target) (env.injected target))) := by
    rw [getDependencyTokens, hfresh]
  refine ⟨?_, ?_, ?_, ?_⟩
  · rw [hrun]
    exact mergeDependencyTokens_length _ _
  · intro i t hit
    rw [hrun]
    have hi := override_lt_specDepLength (env.paramTypes target) (env.injected target) i t hit
    rw [mergeDependencyTokens_get _ _ i hi, hit]
    rfl
  · intro i hi hnone
    rw [hrun] at hi ⊢
    rw [mergeDependencyTokens_length] at hi
    rw [mergeDependencyTokens_get _ _ i hi, hnone]
    rfl
  · rw [hrun, getDependencyTokens, mlookup_aset_self]

/-- Witness for C9 at a concrete constructor: base list `[strTok "a"]`,
one override at index 2. -/
theorem C9_witness :
    mlookup ([] : DepCache) ⟨0, "T"⟩ = none
    ∧ ((getDependencyTokens
          ⟨fun _ => [Token.str "a"], fun _ => [(2, Token.str "b")]⟩
          [] ⟨0, "T"⟩).1.length
        = specDepLength [Token.str "a"] [(2, Token.str "b")]
      ∧ (∀ i t, mlookup [(2, Token.str "b")] i = some t →
          (getDependencyTokens
            ⟨fun _ => [Token.str "a"], fun _ => [(2, Token.str "b")]⟩
            [] ⟨0, "T"⟩).1[i]? = some (some t))
      ∧ (∀ i, i < (getDependencyTokens
            ⟨fun _ => [Token.str "a"], fun _ => [(2, Token.str "b")]⟩
            [] ⟨0, "T"⟩).1.length →
          mlookup [(2, Token.str "b")] i = none →
          (getDependencyTokens
            ⟨fun _ => [Token.str "a"], fun _ => [(2, Token.str "b")]⟩
            [] ⟨0, "T"⟩).1[i]? = some (([Token.str "a"] : List Token).get? i))
      ∧ getDependencyTokens
          ⟨fun _ => [Token.str "a"], fun _ => [(2, Token.str "b")]⟩
          (getDependencyTokens
            ⟨fun _ => [Token.str "a"], fun _ => [(2, Token.str "b")]⟩
            [] ⟨0, "T"⟩).2 ⟨0, "T"⟩
        = getDependencyTokens
            ⟨fun _ => [Token.str "a"], fun _ => [(2, Token.str "b")]⟩
            [] ⟨0, "T"⟩) :=
  ⟨rfl, C9_getDependencyTokens_merge_and_memo
    ⟨fun _ => [Token.str "a"], fun _ => [(2, Token.str "b")]⟩ [] ⟨0, "T"⟩ rfl⟩

/-!
## Container data model (src/@core/container.ts)
-/

/-- The error classes of src/@core/errors/index.ts plus the lazy errors
exercised by src/@core/errors/__tests__/index.test.ts.  `outOfFuel` is
the embedding's marker for non-termination (no source counterpart). -/
inductive Err where
  | moduleNotRegistered (moduleName : String)
  | providerNotFound (tokenStr : String) (moduleName : String)
  | invalidProvider (moduleName : String)
  | moduleDecoratorMissing (moduleName : String)
  | invalidLazyTrigger (moduleName : String)
  | duplicateLazyTrigger (trigger firstModule secondModule : String)
  | lazyModuleExportsNotAllowed (moduleName : String)
  | lazyModuleCannotImportLazyModule (moduleName importName : String)
  | eagerModuleCannotImportLazyModule (moduleName importName : String)
  | outOfFuel
deriving DecidableEq, Repr

/-- The `.message` string of each error object, following
src/@core/errors/index.ts (and, for the lazy errors whose class source
is not shipped, the exact messages pinned by
src/@core/errors/__tests__/index.test.ts). -/
def errMessage : Err → String
  | .moduleNotRegistered m =>
      "Module \"" ++ m ++ "\" is not registered in the container."
  | .providerNotFound t m =>
      "Provider not found for token \"" ++ t ++ "\" in module \"" ++ m
        ++ "\" or its imports."
  | .invalidProvider m =>
      "Invalid provider definition registered in module " ++ m
  | .moduleDecoratorMissing m =>
      "Module " ++ m ++ " does not have the @RgModule decorator"
  | .invalidLazyTrigger m =>
      "Invalid lazy trigger in module \"" ++ m
        ++ "\". \"lazy.trigger\" must be a non-empty string."
  | .duplicateLazyTrigger t a b =>
      "Duplicate lazy trigger \"" ++ t ++ "\" detected in modules \"" ++ a
        ++ "\" and \"" ++ b ++ "\". Each lazy module must use a unique trigger."
  | .lazyModuleExportsNotAllowed m =>
      "Invalid lazy module \"" ++ m ++ "\". Lazy modules cannot declare exports."
  | .lazyModuleCannotImportLazyModule m i =>
      "Invalid lazy module \"" ++ m ++ "\". It cannot import lazy module \"" ++ i
        ++ "\". Lazy modules can only import eager modules."
  | .eagerModuleCannotImportLazyModule m i =>
      "Invalid eager module \"" ++ m ++ "\". It cannot import lazy module \"" ++ i
        ++ "\". Eager modules must import only eager modules."
  | .outOfFuel => "out of fuel"

/-- `Container.getCacheKey`'s token component: `String(token)` for
strings and symbols, `token.name` for classes. -/
def tokenKeyName : Token → String
  | .cls c => c.name
  | .str s => s
  | .sym _ d => "Symbol(" ++ d ++ ")"

/-- JS `String(token)` as used in `new ProviderNotFoundError(String(token), ...)`:
stringifying a class yields its source text (modelled as
`"class " ++ name`); strings and symbols stringify as in
`tokenKeyName`. -/
def tokenToString : Token → String
  | .cls c => "class " ++ c.name
  | .str s => s
  | .sym _ d => "Symbol(" ++ d ++ ")"

/-- `Container.getCacheKey`: `"<module name>:<token key>"`. -/
def getCacheKey (m : Ctor) (t : Token) : String :=
  m.name ++ ":" ++ tokenKeyName t

/-- The object-shaped providers of src/@core/types/provider.ts
(`TFactoryProvider | TClassProvider | TValueProvider | TExistingProvider`,
a disjoint union, which justifies modelling `instantiateProvider`'s
key-presence dispatch as a match on this inductive).  A factory is an
arbitrary JS function from the resolved dependency values (each possibly
`undefined`) to a possibly-`undefined` result. -/
inductive PObj where
  | pfactory (inject : Option (List Token)) (fn : List (Option Value) → Option Value)
  | puseClass (c : Ctor) (inject : Option (List Token))
  | pvalue (v : Option Value)
  | pexisting (target : Token)

/-- A provider object: `provide` token plus one of the four shapes. -/
structure ObjProvider where
  provide : Token
  shape : PObj

/-- What `Container.addProvider` stores in a module's provider map:
`instance ?? provider`.  Either the provider token itself when it is a
class (registerProviders' function branch, registerIpcHandlers), a
provider object, or a raw already-built instance (registerWindows'
window data; `instantiateProvider` returns such entries as-is).
Falsy stored instances (which the source's `if (!provider)` would treat
as absent) do not arise from any registration path and are not
modelled. -/
inductive PEntry where
  | pclassEntry (c : Ctor)
  | pobjEntry (o : ObjProvider)
  | pinstEntry (v : Value)

/-- An element of a module descriptor's `providers` array as consumed by
registerProviders: a function (class), an object with a `provide` key,
or anything else (rejected with `InvalidProviderError`). -/
inductive ProvDecl where
  | pfun (c : Ctor)
  | pobj (o : ObjProvider)
  | pbad

/-- `lazy` config of a module descriptor; `trigger` is `none` when the
field is absent or not a string. -/
structure LazyCfg where
  enabled : Bool
  trigger : Option String

/-- `RgModuleMetadata`: the declarative module descriptor. -/
structure Metadata where
  imports : Option (List Ctor) := none
  providers : Option (List ProvDecl) := none
  exports : Option (List Token) := none
  ipc : Option (List Ctor) := none
  windows : Option (List Ctor) := none
  lazy : Option LazyCfg := none

/-- `metadata.lazy?.enabled` truthiness. -/
def lazyEnabled (md : Metadata) : Bool :=
  match md.lazy with
  | some cfg => cfg.enabled
  | none => false

/-- Registry entry per module: provider map plus export set. -/
structure ModuleData where
  providers : List (Token × PEntry)
  exports : List Token

/-- The container's mutable state, together with the observable effects
needed by the claims: `nextId` is the allocator for fresh JS objects,
`ctorCount` counts `new C(...)` invocations per class, `ipcInits` counts
`onInit` calls performed by `initializeIpcHandlers`, `warned` counts the
windows-without-ipc console warnings. -/
structure CState where
  modules : List (Ctor × ModuleData) := []
  moduleMetadata : List (Ctor × Metadata) := []
  instances : List (Token × Option Value) := []
  resolutionCache : List (String × Option Value) := []
  nextId : Nat := 0
  ctorCount : List (Ctor × Nat) := []
  ipcInits : Nat := 0
  warned : Nat := 0

/-- Ambient reflection environment for the container/bootstrap layer:
`depTokens` is the (memoized, pure) outcome of `getDependencyTokens`
for each class — modelled separately above, treated as an oracle here;
`rgMeta` is the `Reflect.getMetadata("RgModule", ·)` side table;
`windowHash` is the `Reflect` metadata hash of a `@WindowManager` class
(`none` when absent or falsy); `hasOnInit` tells whether a resolved IPC
handler instance has an `onInit` method. -/
structure Env where
  depTokens : Ctor → List Token
  rgMeta : Ctor → Option Metadata
  windowHash : Ctor → Option String
  hasOnInit : Ctor → Bool

/-- `Container.addModule`: no-op returning `false` when present,
otherwise creates the entry with an empty provider map and the
descriptor's export set. -/
def addModule (m : Ctor) (md : Metadata) (st : CState) : Bool × CState :=
  match mlookup st.modules m with
  | some _ => (false, st)
  | none =>
      (true, { st with modules := aset st.modules m ⟨[], md.exports.getD []⟩ })

/-- `Container.setModuleMetadata` (last write wins). -/
def setModuleMetadata (m : Ctor) (md : Metadata) (st : CState) : CState :=
  { st with moduleMetadata := aset st.moduleMetadata m md }

/-- `Container.hasModule`. -/
def hasModule (st : CState) (m : Ctor) : Bool :=
  (mlookup st.modules m).isSome

/-- `Container.getProvider`: `undefined` when the module entry or the
token binding is absent. -/
def getProvider (st : CState) (m : Ctor) (t : Token) : Option PEntry :=
  match mlookup st.modules m with
  | none => none
  | some d => mlookup d.providers t

/-- `Container.getModuleExports`: the export set, or an empty set for an
unknown module. -/
def getModuleExports (st : CState) (m : Ctor) : List Token :=
  match mlookup st.modules m with
  | none => []
  | some d => d.exports

/-- `Container.addProvider`: fatal `ModuleNotRegisteredError` when the
module entry is missing; otherwise stores `instance ?? provider` under
the token. -/
def addProvider (m : Ctor) (t : Token) (e : PEntry) (st : CState) :
    Except (Err × CState) CState :=
  match mlookup st.modules m with
  | none => .error (.moduleNotRegistered m.name, st)
  | some d =>
      .ok { st with
        modules := aset st.modules m { d with providers := aset d.providers t e } }

/-- `Container.registerInstance`: direct insertion into the global
singleton cache. -/
def registerInstance (t : Token) (v : Option Value) (st : CState) : CState :=
  { st with instances := aset st.instances t v }

/-- `new C(...)`: allocate a fresh object id and count the constructor
invocation. -/
def newInstance (st : CState) (c : Ctor) : Value × CState :=
  (st.nextId,
    { st with
      nextId := st.nextId + 1,
      ctorCount := aset st.ctorCount c ((mlookup st.ctorCount c).getD 0 + 1) })

/-!
## `Container.resolve` (src/@core/container.ts)

`resolve` is recursive through `resolveFromImports` (cross-module
recursion), `instantiateProvider` (alias recursion) and
`resolveDependencies` (dependency recursion).  The body of one call is
`resolveBody`, parametric in the recursive entry point `rec`; the tied
knot `resolveFuel` supplies fuel.  `Promise.all` over the dependency
resolutions is modelled sequentially in list order (the cooperative
scheduler starts them in that order); constructors are modelled as
allocation of a fresh object id (side effects inside user constructors
and factories are outside the container's state).
-/

/-- Result of a `resolve` call: resolved value (possibly `undefined`)
plus post-state, or a thrown error with the state at the throw point. -/
abbrev RRes := Except (Err × CState) (Option Value × CState)

/-- `resolveDependencies`: resolve each dependency token against the
requesting module, fail-fast. -/
def resolveList (rec : CState → Ctor → Token → RRes) (m : Ctor) :
    CState → List Token → Except (Err × CState) (List (Option Value) × CState)
  | st, [] => .ok ([], st)
  | st, d :: ds => do
      let (v, st') ← rec st m d
      let (vs, st'') ← resolveList rec m st' ds
      .ok (v :: vs, st'')

/-- The loop of `resolveFromImports`: the first imported module whose
export set contains the token *and* whose provider map binds it wins;
its `resolve` result is returned directly (the search does not continue
even if that result is `undefined`). -/
def searchImports (rec : CState → Ctor → Token → RRes) (st : CState) (t : Token) :
    List Ctor → RRes
  | [] => .ok (none, st)
  | mi :: rest =>
      if t ∈ getModuleExports st mi ∧ (getProvider st mi t).isSome
      then rec st mi t
      else searchImports rec st t rest

/-- `Container.resolveFromImports`: `undefined` when the module has no
stored metadata or no `imports` field, else the import search. -/
def resolveFromImports (rec : CState → Ctor → Token → RRes)
    (st : CState) (m : Ctor) (t : Token) : RRes :=
  match mlookup st.moduleMetadata m with
  | none => .ok (none, st)
  | some md =>
      match md.imports with
      | none => .ok (none, st)
      | some imps => searchImports rec st t imps

/-- `Container.instantiateProvider` dispatch, by provider shape.  Class
construction allocates a fresh id and counts the invocation; the
constructor receives the resolved dependency values, which do not
affect the identity of the fresh object. -/
def instantiateProvider (env : Env) (rec : CState → Ctor → Token → RRes)
    (st : CState) (m : Ctor) (t : Token) : PEntry → RRes
  | .pobjEntry o =>
      match o.shape with
      | .pfactory inj fn => do
          let (vals, st') ← resolveList rec m st (inj.getD [])
          let inst := fn vals
          .ok (inst, { st' with instances := aset st'.instances t inst })
      | .puseClass c inj => do
          let (_vals, st') ← resolveList rec m st (inj.getD (env.depTokens c))
          let (v, st'') := newInstance st' c
          .ok (some v, { st'' with instances := aset st''.instances t (some v) })
      | .pvalue v => .ok (v, { st with instances := aset st.instances t v })
      | .pexisting tgt => do
          let (inst, st') ← rec st m tgt
          match inst with
          | some v =>
              .ok (some v, { st' with instances := aset st'.instances t (some v) })
          | none => .ok (none, st')
  | .pclassEntry c => do
      let (_vals, st') ← resolveList rec m st (env.depTokens c)
      let (v, st'') := newInstance st' c
      .ok (some v, { st'' with instances := aset st''.instances t (some v) })
  | .pinstEntry v => .ok (some v, st)

/-- One unfolding of `Container.resolve`: resolution-cache check, global
singleton-cache check, local provider lookup, import fallback,
not-found handling (`undefined` for the module's own token, otherwise
`ProviderNotFoundError`), instantiation with caching of defined
results. -/
def resolveBody (env : Env) (rec : CState → Ctor → Token → RRes)
    (st : CState) (m : Ctor) (t : Token) : RRes :=
  match mlookup st.resolutionCache (getCacheKey m t) with
  | some v => .ok (v, st)
  | none =>
      match mlookup st.instances t with
      | some v =>
          .ok (v, { st with
            resolutionCache := aset st.resolutionCache (getCacheKey m t) v })
      | none =>
          match getProvider st m t with
          | none => do
              let (r, st') ← resolveFromImports rec st m t
              match r with
              | some v =>
                  .ok (some v, { st' with
                    resolutionCache :=
                      aset st'.resolutionCache (getCacheKey m t) (some v) })
              | none =>
                  if t = .cls m then .ok (none, st')
                  else .error (.providerNotFound (tokenToString t) m.name, st')
          | some p => do
              let (inst, st') ← instantiateProvider env rec st m t p
              match inst with
              | some v =>
                  .ok (some v, { st' with
                    resolutionCache :=
                      aset st'.resolutionCache (getCacheKey m t) (some v) })
              | none => .ok (none, st')

/-- `Container.resolve` with fuel; fuel 0 is the embedding's image of
unbounded recursion (the source has no cycle detection). -/
def resolveFuel (env : Env) : Nat → CState → Ctor → Token → RRes
  | 0, st, _, _ => .error (.outOfFuel, st)
  | fuel + 1, st, m, t => resolveBody env (resolveFuel env fuel) st m t

theorem resolveFuel_succ (env : Env) (f : Nat) (st : CState) (m : Ctor) (t : Token) :
    resolveFuel env (f + 1) st m t = resolveBody env (resolveFuel env f) st m t := rfl

/-!
### Frame lemmas for one `resolve` call
-/

/-- Provider shapes whose instantiation writes the global singleton
cache (`instances.set(token, ...)`): every shape except a raw stored
instance. -/
def PEntry.cachesSingleton : PEntry → Bool
  | .pinstEntry _ => false
  | _ => true

/-- If `instantiateProvider` succeeds with a defined value for a shape
that writes the singleton cache, the post-state's singleton cache binds
the token to that value. -/
theorem instantiateProvider_sets_instances (env : Env)
    (rec : CState → Ctor → Token → RRes) (st : CState) (m : Ctor) (t : Token)
    (p : PEntry) (v : Value) (st' : CState)
    (hshape : p.cachesSingleton = true)
    (h : instantiateProvider env rec st m t p = .ok (some v, st')) :
    mlookup st'.instances t = some (some v) := by
  match p with
  | .pinstEntry w => simp [PEntry.cachesSingleton] at hshape
  | .pclassEntry c =>
      simp only [instantiateProvider] at h
      rcases hAll : resolveList rec m st (env.depTokens c) with e | ⟨vals, st1⟩ <;>
        rw [hAll] at h
      · simp [Bind.bind, Except.bind] at h
      · simp only [Bind.bind, Except.bind, Except.ok.injEq, Prod.mk.injEq,
          Option.some.injEq] at h
        obtain ⟨hv, hst⟩ := h
        subst hst
        simp [hv]
  | .pobjEntry o =>
      match o with
      | ⟨pr, .pfactory inj fn⟩ =>
          simp only [instantiateProvider] at h
          rcases hAll : resolveList rec m st (inj.getD []) with e | ⟨vals, st1⟩ <;>
            rw [hAll] at h
          · simp [Bind.bind, Except.bind] at h
          · simp only [Bind.bind, Except.bind, Except.ok.injEq, Prod.mk.injEq] at h
            obtain ⟨hv, hst⟩ := h
            subst hst
            simp [hv]
      | ⟨pr, .puseClass c inj⟩ =>
          simp only [instantiateProvider] at h
          rcases hAll : resolveList rec m st (inj.getD (env.depTokens c)) with
            e | ⟨vals, st1⟩ <;> rw [hAll] at h
          · simp [Bind.bind, Except.bind] at h
          · simp only [Bind.bind, Except.bind, Except.ok.injEq, Prod.mk.injEq,
              Option.some.injEq] at h
            obtain ⟨hv, hst⟩ := h
            subst hst
            simp [hv]
      | ⟨pr, .pvalue w⟩ =>
          simp only [instantiateProvider] at h
          simp only [Except.ok.injEq, Prod.mk.injEq] at h
          obtain ⟨hv, hst⟩ := h
          subst hst
          simp [hv]
      | ⟨pr, .pexisting tgt⟩ =>
          simp only [instantiateProvider] at h
          rcases hAll : rec st m tgt with e | ⟨inst, st1⟩ <;> rw [hAll] at h
          · simp [Bind.bind, Except.bind] at h
          · rcases inst with _ | w
            · simp [Bind.bind, Except.bind] at h
            · simp only [Bind.bind, Except.bind, Except.ok.injEq, Prod.mk.injEq,
                Option.some.injEq] at h
              obtain ⟨hv, hst⟩ := h
              subst hst
              simp [hv]

/-- Branch equation: with both caches missing and a local provider
found, `resolve` is the instantiation branch. -/
theorem resolveBody_local (env : Env) (rec : CState → Ctor → Token → RRes)
    (st : CState) (m : Ctor) (t : Token) (p : PEntry)
    (hrc : mlookup st.resolutionCache (getCacheKey m t) = none)
    (hin : mlookup st.instances t = none)
    (hgp : getProvider st m t = some p) :
    resolveBody env rec st m t
      = (do
          let (inst, st') ← instantiateProvider env rec st m t p
          match inst with
          | some v =>
              Except.ok (some v, { st' with
                resolutionCache :=
                  aset st'.resolutionCache (getCacheKey m t) (some v) })
          | none => Except.ok (none, st')) := by
  rw [resolveBody, hrc, hin, hgp]

/-- Branch equation: with both caches missing and no local provider,
`resolve` is the import-fallback/not-found branch. -/
theorem resolveBody_no_local (env : Env) (rec : CState → Ctor → Token → RRes)
    (st : CState) (m : Ctor) (t : Token)
    (hrc : mlookup st.resolutionCache (getCacheKey m t) = none)
    (hin : mlookup st.instances t = none)
    (hgp : getProvider st m t = none) :
    resolveBody env rec st m t
      = (do
          let (r, st') ← resolveFromImports rec st m t
          match r with
          | some v =>
              Except.ok (some v, { st' with
                resolutionCache :=
                  aset st'.resolutionCache (getCacheKey m t) (some v) })
          | none =>
              if t = .cls m then Except.ok (none, st')
              else Except.error (.providerNotFound (tokenToString t) m.name, st')) := by
  rw [resolveBody, hrc, hin, hgp]

/-- Any `resolve` call that returns a *defined* value leaves that value
in the resolution cache under the caller's key (every defined-success
path either hit the cache or ends by writing it). -/
theorem resolveBody_some_caches (env : Env) (rec : CState → Ctor → Token → RRes)
    (st : CState) (m : Ctor) (t : Token) (v : Value) (st' : CState)
    (h : resolveBody env rec st m t = .ok (some v, st')) :
    mlookup st'.resolutionCache (getCacheKey m t) = some (some v) := by
  rcases hrc : mlookup st.resolutionCache (getCacheKey m t) with _ | w
  case some =>
    rw [resolveBody, hrc] at h
    simp only [Except.ok.injEq, Prod.mk.injEq] at h
    obtain ⟨hv, hst⟩ := h
    subst hst
    rw [hrc, hv]
  case none =>
  rcases hin : mlookup st.instances t with _ | w
  case some =>
    rw [resolveBody, hrc, hin] at h
    simp only [Except.ok.injEq, Prod.mk.injEq] at h
    obtain ⟨hv, hst⟩ := h
    subst hst
    simp [hv]
  case none =>
  rcases hgp : getProvider st m t with _ | p
  · rw [resolveBody_no_local env rec st m t hrc hin hgp] at h
    rcases hImp : resolveFromImports rec st m t with e | ⟨r, st1⟩ <;> rw [hImp] at h
    · simp [Bind.bind, Except.bind] at h
    · rcases r with _ | w
      · simp only [Bind.bind, Except.bind] at h
        split at h <;> simp_all
      · simp only [Bind.bind, Except.bind, Except.ok.injEq, Prod.mk.injEq,
          Option.some.injEq] at h
        obtain ⟨hv, hst⟩ := h
        subst hst
        simp [hv]
  · rw [resolveBody_local env rec st m t p hrc hin hgp] at h
    rcases hInst : instantiateProvider env rec st m t p with e | ⟨inst, st1⟩ <;>
      rw [hInst] at h
    · simp [Bind.bind, Except.bind] at h
    · rcases inst with _ | w
      · simp [Bind.bind, Except.bind] at h
      · simp only [Bind.bind, Except.bind, Except.ok.injEq, Prod.mk.injEq,
          Option.some.injEq] at h
        obtain ⟨hv, hst⟩ := h
        subst hst
        simp [hv]

/-- Step 1 of `resolve`: a resolution-cache hit returns the cached value
with the state untouched. -/
theorem resolve_cache_hit (env : Env) (f : Nat) (st : CState) (m : Ctor)
    (t : Token) (v : Option Value)
    (h : mlookup st.resolutionCache (getCacheKey m t) = some v) :
    resolveFuel env (f + 1) st m t = .ok (v, st) := by
  rw [resolveFuel_succ, resolveBody, h]

/-- Step 2 of `resolve`: a singleton-cache hit returns the global
instance and copies it into the resolution cache. -/
theorem resolve_instances_hit (env : Env) (f : Nat) (st : CState) (m : Ctor)
    (t : Token) (v : Option Value)
    (hrc : mlookup st.resolutionCache (getCacheKey m t) = none)
    (h : mlookup st.instances t = some v) :
    resolveFuel env (f + 1) st m t
      = .ok (v, { st with
          resolutionCache := aset st.resolutionCache (getCacheKey m t) v }) := by
  rw [resolveFuel_succ, resolveBody, hrc, h]

/-- A successful defined resolution whose provider is found locally (and
is not a raw stored instance) populates both the global singleton cache
and the caller's resolution-cache entry. -/
theorem resolve_local_success (env : Env) (f : Nat) (st : CState) (m : Ctor)
    (t : Token) (e : PEntry) (v : Value) (st' : CState)
    (hrc : mlookup st.resolutionCache (getCacheKey m t) = none)
    (hin : mlookup st.instances t = none)
    (hprov : getProvider st m t = some e)
    (hshape : e.cachesSingleton = true)
    (h : resolveFuel env (f + 1) st m t = .ok (some v, st')) :
    mlookup st'.instances t = some (some v)
      ∧ mlookup st'.resolutionCache (getCacheKey m t) = some (some v) := by
  refine ⟨?_, resolveBody_some_caches env _ st m t v st' h⟩
  rw [resolveFuel_succ, resolveBody_local env _ st m t e hrc hin hprov] at h
  rcases hInst : instantiateProvider env (resolveFuel env f) st m t e with er | ⟨inst, st1⟩ <;>
    rw [hInst] at h
  · simp [Bind.bind, Except.bind] at h
  · rcases inst with _ | w
    · simp [Bind.bind, Except.bind] at h
    · simp only [Bind.bind, Except.bind, Except.ok.injEq, Prod.mk.injEq,
        Option.some.injEq] at h
      obtain ⟨hv, hst⟩ := h
      subst hst
      subst hv
      exact instantiateProvider_sets_instances env _ st m t e w st1 hshape hInst

/-- The `imports` list `resolveFromImports` iterates: from the stored
(container) metadata, empty when absent. -/
def importsOf (st : CState) (m : Ctor) : List Ctor :=
  match mlookup st.moduleMetadata m with
  | none => []
  | some md => md.imports.getD []

theorem searchImports_none (rec : CState → Ctor → Token → RRes) (st : CState)
    (t : Token) (l : List Ctor)
    (h : ∀ mi ∈ l, ¬ (t ∈ getModuleExports st mi ∧ (getProvider st mi t).isSome)) :
    searchImports rec st t l = .ok (none, st) := by
  induction l with
  | nil => rfl
  | cons mi rest ih =>
      rw [searchImports, if_neg (h mi (List.mem_cons_self mi rest))]
      exact ih (fun mj hj => h mj (List.mem_cons_of_mem mi hj))

theorem resolveFromImports_none (rec : CState → Ctor → Token → RRes)
    (st : CState) (m : Ctor) (t : Token)
    (h : ∀ mi ∈ importsOf st m, ¬ (t ∈ getModuleExports st mi ∧ (getProvider st mi t).isSome)) :
    resolveFromImports rec st m t = .ok (none, st) := by
  rw [resolveFromImports]
  rcases hmd : mlookup st.moduleMetadata m with _ | md
  · rfl
  · rcases himps : md.imports with _ | imps
    · simp [himps]
    · simp only [himps]
      refine searchImports_none rec st t imps (fun mi hi => h mi ?_)
      rw [importsOf, hmd]
      simp [himps]
      exact hi

/-- **C3.** For a module `m` and token `t` with no resolution/singleton
cache entry, no local provider, and no import that both exports `t` and
binds a provider for it, `resolve(m, t)` returns `undefined` when
`t === moduleClass` and otherwise throws
`ProviderNotFoundError(String(token), moduleClass.name)`, identifying
both the token and the module; the container state is unchanged. -/
theorem C3_resolve_not_found (env : Env) (f : Nat) (st : CState) (m : Ctor)
    (t : Token)
    (hrc : mlookup st.resolutionCache (getCacheKey m t) = none)
    (hin : mlookup st.instances t = none)
    (hgp : getProvider st m t = none)
    (himp : ∀ mi ∈ importsOf st m,
      ¬ (t ∈ getModuleExports st mi ∧ (getProvider st mi t).isSome)) :
    resolveFuel env (f + 1) st m t
      = if t = .cls m then .ok (none, st)
        else .error (.providerNotFound (tokenToString t) m.name, st) := by
  rw [resolveFuel_succ, resolveBody_no_local env _ st m t hrc hin hgp,
    resolveFromImports_none _ st m t himp]
  simp [Bind.bind, Except.bind]

/-- **C10.** The resolution cache is keyed by the string
`"<module name>:<token key>"`, not by the identity of the
`(moduleRef, token)` pair: for two distinct tokens with the same string
form resolved in same-named modules, the second `resolve` returns the
first token's cached instance unchanged (no provider of the second
token is consulted, and the state is untouched). -/
theorem C10_cache_key_collision (env : Env) (f fb : Nat) (st st1 : CState)
    (m1 m2 : Ctor) (t1 t2 : Token) (v : Value)
    (hne : t1 ≠ t2) (hkey : tokenKeyName t1 = tokenKeyName t2)
    (hname : m1.name = m2.name)
    (h : resolveFuel env (f + 1) st m1 t1 = .ok (some v, st1)) :
    resolveFuel env (fb + 1) st1 m2 t2 = .ok (some v, st1) := by
  have hc := resolveBody_some_caches env (resolveFuel env f) st m1 t1 v st1 h
  have hkey2 : getCacheKey m2 t2 = getCacheKey m1 t1 := by
    rw [getCacheKey, getCacheKey, hname, hkey]
  refine resolve_cache_hit env fb st1 m2 t2 (some v) ?_
  rw [hkey2]
  exact hc

/-!
### Concrete fixtures for witnesses and counterexamples
-/

/-- Environment with no reflection metadata at all. -/
def envW : Env := ⟨fun _ => [], fun _ => none, fun _ => none, fun _ => false⟩

def cM1 : Ctor := ⟨0, "M1"⟩
def cM2 : Ctor := ⟨1, "M2"⟩
def cSvc : Ctor := ⟨2, "Svc"⟩
def tSvc : Token := .cls cSvc
def tAlias : Token := .str "alias"

/-- Module `M1` provides `Svc` (direct class) and the alias token
`useExisting: Svc`, exporting only `Svc`; `M2` imports `M1` and
provides nothing. -/
def stW : CState :=
  { modules :=
      [(cM1, ⟨[(tSvc, .pclassEntry cSvc),
               (tAlias, .pobjEntry ⟨tAlias, .pexisting tSvc⟩)], [tSvc]⟩),
       (cM2, ⟨[], []⟩)],
    moduleMetadata := [(cM2, { imports := some [cM1] }), (cM1, {})] }

/-- The state after `resolve(M1, Svc)` succeeds on `stW`: fresh object
`0` allocated, singleton cache and `M1`'s resolution-cache entry
populated. -/
def stW1 : CState :=
  { modules := stW.modules,
    moduleMetadata := stW.moduleMetadata,
    instances := aset stW.instances tSvc (some 0),
    resolutionCache := aset stW.resolutionCache (getCacheKey cM1 tSvc) (some 0),
    nextId := 1,
    ctorCount := aset stW.ctorCount cSvc 1 }

/-- Witness for C3: resolving the unprovided string token `"nope"` on
`M2` (whose single import `M1` does not export it... `M1` exports only
`Svc`) throws `ProviderNotFoundError` naming both. -/
theorem C3_witness :
    mlookup stW.resolutionCache (getCacheKey cM2 (.str "nope")) = none
    ∧ mlookup stW.instances (.str "nope") = none
    ∧ getProvider stW cM2 (.str "nope") = none
    ∧ (∀ mi ∈ importsOf stW cM2,
        ¬ ((Token.str "nope") ∈ getModuleExports stW mi
          ∧ (getProvider stW mi (.str "nope")).isSome))
    ∧ resolveFuel envW 1 stW cM2 (.str "nope")
        = if (Token.str "nope") = .cls cM2 then .ok (none, stW)
          else .error (.providerNotFound (tokenToString (.str "nope")) cM2.name, stW) := by
  refine ⟨rfl, rfl, rfl, ?_, ?_⟩
  · intro mi hi
    rw [importsOf] at hi
    simp only [stW, mlookup_cons] at hi
    norm_num at hi
    subst hi
    rintro ⟨hmem, _⟩
    simp [getModuleExports, stW, mlookup, cM1, cM2, tSvc] at hmem
  · exact C3_resolve_not_found envW 0 stW cM2 (.str "nope") rfl rfl rfl
      (by
        intro mi hi
        rw [importsOf] at hi
        simp only [stW, mlookup_cons] at hi
        norm_num at hi
        subst hi
        rintro ⟨hmem, _⟩
        simp [getModuleExports, stW, mlookup, cM1, cM2, tSvc] at hmem)

def cMa : Ctor := ⟨10, "M"⟩
def cMb : Ctor := ⟨11, "M"⟩
def cX : Ctor := ⟨12, "X"⟩

/-- Fixture for C10: two distinct modules both named `"M"`; `Ma`
provides the class token `X` (class named `"X"`), `Mb` provides the
*string* token `"X"` as a value provider — a distinct token with the
same string form. -/
def stX : CState :=
  { modules :=
      [(cMa, ⟨[(.cls cX, .pclassEntry cX)], []⟩),
       (cMb, ⟨[(.str "X", .pobjEntry ⟨.str "X", .pvalue (some 99)⟩)], []⟩)] }

/-- State after `resolve(Ma, clsX)` on `stX`. -/
def stX1 : CState :=
  { modules := stX.modules,
    instances := aset stX.instances (.cls cX) (some 0),
    resolutionCache := aset stX.resolutionCache (getCacheKey cMa (.cls cX)) (some 0),
    nextId := 1,
    ctorCount := aset stX.ctorCount cX 1 }

/-- Witness for C10: resolving string token `"X"` on `Mb` (same name as
`Ma`) returns class token `X`'s cached instance `0`, not `Mb`'s own
value provider `99`. -/
theorem C10_witness :
    (Token.cls cX ≠ .str "X")
    ∧ tokenKeyName (.cls cX) = tokenKeyName (.str "X")
    ∧ cMa.name = cMb.name
    ∧ resolveFuel envW 1 stX cMa (.cls cX) = .ok (some 0, stX1)
    ∧ resolveFuel envW 1 stX1 cMb (.str "X") = .ok (some 0, stX1) :=
  ⟨by decide, rfl, rfl, rfl,
    C10_cache_key_collision envW 0 0 stX stX1 cMa cMb (.cls cX) (.str "X") 0
      (by decide) rfl rfl rfl⟩

def cA2 : Ctor := ⟨20, "A"⟩
def cB2 : Ctor := ⟨21, "B"⟩
def cP : Ctor := ⟨22, "P"⟩
def tP : Token := .cls cP

/-- Fixture for C2: `A` provides class `P` with an *empty* export set;
`B` imports `A` and provides nothing. -/
def stE : CState :=
  { modules := [(cA2, ⟨[(tP, .pclassEntry cP)], []⟩), (cB2, ⟨[], []⟩)],
    moduleMetadata := [(cB2, { imports := some [cA2] }), (cA2, {})] }

/-- State after `resolve(A, P)` on `stE`. -/
def stE1 : CState :=
  { modules := stE.modules,
    moduleMetadata := stE.moduleMetadata,
    instances := aset stE.instances tP (some 0),
    resolutionCache := aset stE.resolutionCache (getCacheKey cA2 tP) (some 0),
    nextId := 1,
    ctorCount := aset stE.ctorCount cP 1 }

/-- **C2 counterexample.** `A` provides `P` but does not export it, `B`
imports `A`; after `resolve(A, P)` has succeeded, `resolve(B, P)` does
*not* fail with `ProviderNotFound` — the global singleton-cache check
(step 2 of `resolve`, which precedes the local/import provider lookup)
returns `A`'s instance to `B`, bypassing the export boundary. -/
theorem C2_counterexample :
    getProvider stE cA2 tP = some (.pclassEntry cP)
    ∧ getModuleExports stE cA2 = []
    ∧ importsOf stE cB2 = [cA2]
    ∧ resolveFuel envW 1 stE cA2 tP = .ok (some 0, stE1)
    ∧ resolveFuel envW 1 stE1 cB2 tP
        = .ok (some 0, { stE1 with
            resolutionCache := aset stE1.resolutionCache (getCacheKey cB2 tP) (some 0) }) :=
  ⟨rfl, rfl, rfl, rfl, rfl⟩

/-- **C2 (amended).** A provider registered but not exported by `A`
fails with `ProviderNotFound` when resolved from importer `B` *only
while the token is absent from the global singleton cache*; once
`resolve(A, t)` has succeeded, `resolve(B, t)` returns `A`'s cached
instance instead (the singleton cache is global and its check precedes
the export-boundary check). -/
theorem C2_export_boundary_amended (env : Env) (f fb : Nat) (st st1 : CState)
    (A B : Ctor) (t : Token) (e : PEntry) (v : Value)
    (hrcB : mlookup st.resolutionCache (getCacheKey B t) = none)
    (hinst : mlookup st.instances t = none)
    (hgpB : getProvider st B t = none)
    (himpB : importsOf st B = [A])
    (hexp : t ∉ getModuleExports st A)
    (htB : t ≠ .cls B)
    (hrcA : mlookup st.resolutionCache (getCacheKey A t) = none)
    (hgpA : getProvider st A t = some e)
    (hshape : e.cachesSingleton = true)
    (hfirst : resolveFuel env (f + 1) st A t = .ok (some v, st1))
    (hrcB1 : mlookup st1.resolutionCache (getCacheKey B t) = none) :
    resolveFuel env (f + 1) st B t
      = .error (.providerNotFound (tokenToString t) B.name, st)
    ∧ resolveFuel env (fb + 1) st1 B t
        = .ok (some v, { st1 with
            resolutionCache := aset st1.resolutionCache (getCacheKey B t) (some v) }) := by
  constructor
  · rw [resolveFuel_succ, resolveBody_no_local env _ st B t hrcB hinst hgpB,
      resolveFromImports_none _ st B t (by
        intro mi hi
        rw [himpB] at hi
        rcases List.mem_singleton.mp hi with rfl
        rintro ⟨hmem, _⟩
        exact hexp hmem)]
    simp [Bind.bind, Except.bind, htB]
  · obtain ⟨hinst1, _⟩ :=
      resolve_local_success env f st A t e v st1 hrcA hinst hgpA hshape hfirst
    exact resolve_instances_hit env fb st1 B t (some v) hrcB1 hinst1

/-- Witness for the amended C2 on the `stE` fixture. -/
theorem C2_amended_witness :
    mlookup stE.resolutionCache (getCacheKey cB2 tP) = none
    ∧ mlookup stE.instances tP = none
    ∧ getProvider stE cB2 tP = none
    ∧ importsOf stE cB2 = [cA2]
    ∧ tP ∉ getModuleExports stE cA2
    ∧ tP ≠ .cls cB2
    ∧ resolveFuel envW 1 stE cA2 tP = .ok (some 0, stE1)
    ∧ (resolveFuel envW 1 stE cB2 tP
        = .error (.providerNotFound (tokenToString tP) cB2.name, stE)
      ∧ resolveFuel envW 1 stE1 cB2 tP
        = .ok (some 0, { stE1 with
            resolutionCache := aset stE1.resolutionCache (getCacheKey cB2 tP) (some 0) })) :=
  ⟨rfl, rfl, rfl, rfl, by decide, by decide, rfl,
    C2_export_boundary_amended envW 0 0 stE stE1 cA2 cB2 tP (.pclassEntry cP) 0
      rfl rfl rfl rfl (by decide) (by decide) rfl rfl rfl rfl rfl⟩

/-- **C4.** Singleton identity: after a first successful resolution of
`t` (local provider on `m1`, any instantiating provider shape),
(1) a repeated `resolve(m1, t)` returns the identical reference with
the state unchanged; (2) `resolve(m2, t)` from any module whose cache
key is not staled by an unrelated entry returns the identical reference
(via the global singleton cache); (3) resolving an alias token `a`
(`useExisting: t`) on `m1` returns the identical reference and leaves
both `a` and `t` bound to it in the singleton cache. -/
theorem C4_singleton_identity (env : Env) (f fb fc : Nat) (st st1 : CState)
    (m1 m2 : Ctor) (t a : Token) (e : PEntry) (v : Value)
    (hrc : mlookup st.resolutionCache (getCacheKey m1 t) = none)
    (hin : mlookup st.instances t = none)
    (hprov : getProvider st m1 t = some e)
    (hshape : e.cachesSingleton = true)
    (hfirst : resolveFuel env (f + 1) st m1 t = .ok (some v, st1)) :
    resolveFuel env (fb + 1) st1 m1 t = .ok (some v, st1)
    ∧ ((∀ w, mlookup st1.resolutionCache (getCacheKey m2 t) = some w → w = some v) →
        ∃ st2, resolveFuel env (fb + 1) st1 m2 t = .ok (some v, st2))
    ∧ (mlookup st1.resolutionCache (getCacheKey m1 a) = none →
        mlookup st1.instances a = none →
        getProvider st1 m1 a = some (.pobjEntry ⟨a, .pexisting t⟩) →
        a ≠ t →
        resolveFuel env (fc + 1 + 1) st1 m1 a
            = .ok (some v, { st1 with
                instances := aset st1.instances a (some v),
                resolutionCache :=
                  aset st1.resolutionCache (getCacheKey m1 a) (some v) })
          ∧ mlookup (aset st1.instances a (some v)) a = some (some v)
          ∧ mlookup (aset st1.instances a (some v)) t = some (some v)) := by
  obtain ⟨hinst1, hrc1⟩ :=
    resolve_local_success env f st m1 t e v st1 hrc hin hprov hshape hfirst
  refine ⟨resolve_cache_hit env fb st1 m1 t (some v) hrc1, ?_, ?_⟩
  · intro hbenign
    rcases hk : mlookup st1.resolutionCache (getCacheKey m2 t) with _ | w
    · exact ⟨_, resolve_instances_hit env fb st1 m2 t (some v) hk hinst1⟩
    · have hw := hbenign w hk
      subst hw
      exact ⟨st1, resolve_cache_hit env fb st1 m2 t (some v) hk⟩
  · intro hrca hina hgpa hat
    refine ⟨?_, by simp, ?_⟩
    · rw [resolveFuel_succ, resolveBody_local env _ st1 m1 a _ hrca hina hgpa]
      simp only [instantiateProvider]
      rw [resolve_cache_hit env fc st1 m1 t (some v) hrc1]
      simp [Bind.bind, Except.bind]
    · rw [mlookup_aset_ne _ _ _ _ hat]
      exact hinst1

/-- Witness for C4 on the `stW` fixture: `M1` provides `Svc` and the
alias `"alias" → Svc`; `M2` imports `M1` (which exports `Svc`). -/
theorem C4_witness :
    mlookup stW.resolutionCache (getCacheKey cM1 tSvc) = none
    ∧ mlookup stW.instances tSvc = none
    ∧ getProvider stW cM1 tSvc = some (.pclassEntry cSvc)
    ∧ (PEntry.pclassEntry cSvc).cachesSingleton = true
    ∧ resolveFuel envW 1 stW cM1 tSvc = .ok (some 0, stW1)
    ∧ (resolveFuel envW 1 stW1 cM1 tSvc = .ok (some 0, stW1)
      ∧ ((∀ w, mlookup stW1.resolutionCache (getCacheKey cM2 tSvc) = some w →
            w = some 0) →
          ∃ st2, resolveFuel envW 1 stW1 cM2 tSvc = .ok (some 0, st2))
      ∧ (mlookup stW1.resolutionCache (getCacheKey cM1 tAlias) = none →
          mlookup stW1.instances tAlias = none →
          getProvider stW1 cM1 tAlias
            = some (.pobjEntry ⟨tAlias, .pexisting tSvc⟩) →
          tAlias ≠ tSvc →
          resolveFuel envW 2 stW1 cM1 tAlias
              = .ok (some 0, { stW1 with
                  instances := aset stW1.instances tAlias (some 0),
                  resolutionCache :=
                    aset stW1.resolutionCache (getCacheKey cM1 tAlias) (some 0) })
            ∧ mlookup (aset stW1.instances tAlias (some 0)) tAlias = some (some 0)
            ∧ mlookup (aset stW1.instances tAlias (some 0)) tSvc = some (some 0))) :=
  ⟨rfl, rfl, rfl, rfl, rfl,
    C4_singleton_identity envW 0 0 0 stW stW1 cM1 cM2 tSvc tAlias
      (.pclassEntry cSvc) 0 rfl rfl rfl rfl rfl⟩

/-!
## Module Registration Pipeline (src/@core/bootstrap)

`initializeModule` / `registerProviders` / `registerImports` /
`registerWindows` / `registerIpcHandlers`.  The lazy structural
validation (`validateLazyConstraints`, shipped in the repository) and
its call sites are wired per the spec, see the doc comments below.
-/

/-- Pipeline result: the new container state, or a thrown error carrying
the state at the throw point. -/
abbrev PRes := Except (Err × CState) CState

/-- The import loop of `validateLazyConstraints`: the first import whose
decorator metadata is lazy-enabled aborts. -/
def findLazyImport (env : Env) (m : Ctor) : List Ctor → Option Err
  | [] => none
  | mi :: rest =>
      match env.rgMeta mi with
      | some mdi =>
          if lazyEnabled mdi then
            some (.lazyModuleCannotImportLazyModule m.name mi.name)
          else findLazyImport env m rest
      | none => findLazyImport env m rest

/-- `validateLazyConstraints` (shipped with the bootstrap layer): a
no-op for eager modules; a lazy module must declare no exports and may
not import a lazy module. -/
def validateLazyConstraints (env : Env) (m : Ctor) (md : Metadata) : Option Err :=
  if lazyEnabled md = false then none
  else if 0 < (md.exports.getD []).length then
    some (.lazyModuleExportsNotAllowed m.name)
  else
    match md.imports with
    | none => none
    | some imps => if imps.length = 0 then none else findLazyImport env m imps

/-- The loop of `registerProviders`: functions are stored under
themselves, provider objects under their `provide` token, anything else
is an `InvalidProviderError`. -/
def regProvList (m : Ctor) : List ProvDecl → CState → PRes
  | [], st => .ok st
  | p :: ps, st =>
      match p with
      | .pfun c => do
          regProvList m ps (← addProvider m (.cls c) (.pclassEntry c) st)
      | .pobj o => do
          regProvList m ps (← addProvider m o.provide (.pobjEntry o) st)
      | .pbad => .error (.invalidProvider m.name, st)

/-- `registerProviders`. -/
def registerProviders (m : Ctor) (md : Metadata) (st : CState) : PRes :=
  match md.providers with
  | none => .ok st
  | some ps => regProvList m ps st

/-- The loop of `registerWindows`: a window class with truthy
`@WindowManager` hash metadata is stored under the hash string as a
fresh `{metadata, windowClass}` object (a raw instance); others are
skipped. -/
def regWinList (env : Env) (m : Ctor) : List Ctor → CState → PRes
  | [], st => .ok st
  | w :: ws, st =>
      match env.windowHash w with
      | some hash => do
          regWinList env m ws
            (← addProvider m (.str hash) (.pinstEntry st.nextId)
              { st with nextId := st.nextId + 1 })
      | none => regWinList env m ws st

/-- `registerWindows`. -/
def registerWindows (env : Env) (m : Ctor) (md : Metadata) (st : CState) : PRes :=
  match md.windows with
  | none => .ok st
  | some ws => regWinList env m ws st

/-- The loop of `registerIpcHandlers`: each handler class is stored as a
provider under itself. -/
def regIpcList (m : Ctor) : List Ctor → CState → PRes
  | [], st => .ok st
  | c :: cs, st => do
      regIpcList m cs (← addProvider m (.cls c) (.pclassEntry c) st)

/-- `registerIpcHandlers`. -/
def registerIpcHandlers (m : Ctor) (md : Metadata) (st : CState) : PRes :=
  match md.ipc with
  | none => .ok st
  | some cs => regIpcList m cs st

/-- The loop of `registerImports`, parametric in the recursive
`initializeModule` entry point (`initM`).  Imports without decorator
metadata are skipped.  Modelled from the spec: the eager/lazy import
constraint is "validated before recursing" (spec §4.4), raising
`EagerModuleCannotImportLazyModuleError` naming both modules — the
revision of register-imports.ts containing this check is not in the
repository snapshot (only its tests, e.g. "should enforce lazy
constraints for imported modules"). -/
def regImpList (env : Env) (initM : Ctor → Metadata → CState → PRes)
    (m : Ctor) (md : Metadata) : List Ctor → CState → PRes
  | [], st => .ok st
  | mi :: rest, st =>
      match env.rgMeta mi with
      | none => regImpList env initM m md rest st
      | some mdi =>
          if lazyEnabled mdi && !lazyEnabled md then
            .error (.eagerModuleCannotImportLazyModule m.name mi.name, st)
          else do
            regImpList env initM m md rest (← initM mi mdi st)

/-- One unfolding of `initializeModule`, parametric in the recursive
entry point used for imports.  Modelled from the spec for the
validation call site: spec §4.4 places `validateLazyConstraints` "once,
at the top of this pipeline, before providers are registered — a
violation aborts before any partial registration", so it runs before
`addModule`; the remainder is the shipped initialize-module.ts
(addModule, setModuleMetadata — performed even for an already-present
module — early return on re-registration, then providers, imports,
windows, IPC handlers in source order). -/
def initializeModuleBody (env : Env) (initM : Ctor → Metadata → CState → PRes)
    (m : Ctor) (md : Metadata) (st : CState) : PRes :=
  match validateLazyConstraints env m md with
  | some e => .error (e, st)
  | none =>
      let (isNew, st1) := addModule m md st
      let st2 := setModuleMetadata m md st1
      if isNew = false then .ok st2
      else do
        let st3 ← registerProviders m md st2
        let st4 ← regImpList env initM m md (md.imports.getD []) st3
        let st5 ← registerWindows env m md st4
        registerIpcHandlers m md st5

/-- `initializeModule` with fuel (import graphs can be cyclic; the
source terminates on cycles via the `addModule` early return, which the
fuel merely bounds). -/
def initializeModule (env : Env) : Nat → Ctor → Metadata → CState → PRes
  | 0, _, _, st => .error (.outOfFuel, st)
  | fuel + 1, m, md, st =>
      initializeModuleBody env (initializeModule env fuel) m md st

/-- `instantiateModule`: resolve the module class's dependency tokens,
construct the module instance, and register it in the global singleton
cache under the module class token. -/
def instantiateModule (env : Env) (fuel : Nat) (m : Ctor) (st : CState) : PRes := do
  let (_vals, st1) ← resolveList (resolveFuel env fuel) m st (env.depTokens m)
  let (v, st2) := newInstance st1 m
  .ok (registerInstance (.cls m) (some v) st2)

/-- The loop of `initializeIpcHandlers`: resolve each handler class and
call `onInit` on instances that have it (counted in `ipcInits`). -/
def ipcInitList (env : Env) (fuel : Nat) (m : Ctor) : List Ctor → CState → PRes
  | [], st => .ok st
  | c :: cs, st => do
      let (inst, st1) ← resolveFuel env fuel st m (.cls c)
      ipcInitList env fuel m cs
        (if inst.isSome && env.hasOnInit c then
          { st1 with ipcInits := st1.ipcInits + 1 } else st1)

/-- `initializeIpcHandlers`. -/
def initializeIpcHandlers (env : Env) (fuel : Nat) (m : Ctor) (md : Metadata)
    (st : CState) : PRes :=
  match md.ipc with
  | none => .ok st
  | some cs => ipcInitList env fuel m cs st

/-- The windows-without-ipc `console.warn` of bootstrap.ts and the lazy
handler (`metadata.windows?.length && !metadata.ipc?.length`). -/
def warnCheck (md : Metadata) (st : CState) : CState :=
  if 0 < (md.windows.getD []).length ∧ (md.ipc.getD []).length = 0 then
    { st with warned := st.warned + 1 }
  else st

/-- The per-module startup sequence, shared verbatim by the eager
bootstrap loop (bootstrap.ts) and the lazy handler's pipeline run
(register-lazy-module): initializeModule; instantiateModule;
`container.resolve(moduleClass, moduleClass)`; the windows warning;
initializeIpcHandlers. -/
def moduleStartup (env : Env) (fuel : Nat) (m : Ctor) (md : Metadata)
    (st : CState) : PRes := do
  let st1 ← initializeModule env fuel m md st
  let st2 ← instantiateModule env fuel m st1
  let (_r, st3) ← resolveFuel env fuel st2 m (.cls m)
  initializeIpcHandlers env fuel m md (warnCheck md st3)

/-!
## Lazy Activation Gate (register-lazy-module, in register-imports.ts)

The trigger handler closes over `initPromise` (`Promise | null`).  Its
prologue — check `initPromise`, else create the pipeline promise and
store it — runs synchronously before any `await`, hence atomically in
the single-threaded event loop: it is one machine step (`gateInvoke`).
The async pipeline body completes later; `gateComplete` is the
settlement step, fed the run's outcome.  Promise identities are `Nat`s
(run numbers); two callers holding equal promise ids observe the same
settled response by definition of a promise.
-/

/-- `TLazyModuleResponse` (src/@core/types/lazy.ts). -/
structure LazyResponse where
  initialized : Bool
  name : String
  error : Option String
deriving DecidableEq, Repr

/-- Gate state: the module, the stored in-flight/settled promise
(`initPromise`), and how many pipeline runs have been started. -/
structure Gate where
  module : Ctor
  initPromise : Option Nat
  startedRuns : Nat
deriving DecidableEq, Repr

/-- JS `String.prototype.trim()`: strip leading and trailing
whitespace (kernel-reducible implementation over the character list). -/
def jsTrim (s : String) : String :=
  ⟨((s.data.dropWhile Char.isWhitespace).reverse.dropWhile
      Char.isWhitespace).reverse⟩

/-- `getValidLazyTrigger`: `metadata.lazy?.trigger` must be a string
that is non-empty after trimming; the trimmed trigger is returned. -/
def getValidLazyTrigger (m : Ctor) (md : Metadata) : Except Err String :=
  match md.lazy with
  | some cfg =>
      match cfg.trigger with
      | some s =>
          if (jsTrim s).length = 0 then .error (.invalidLazyTrigger m.name)
          else .ok (jsTrim s)
      | none => .error (.invalidLazyTrigger m.name)
  | none => .error (.invalidLazyTrigger m.name)

/-- The handler's synchronous prologue: an existing `initPromise` is
returned as-is (no new run); otherwise a fresh run is started and its
promise stored. -/
def gateInvoke (g : Gate) : Nat × Gate :=
  match g.initPromise with
  | some p => (p, g)
  | none =>
      (g.startedRuns,
        { g with initPromise := some g.startedRuns,
                 startedRuns := g.startedRuns + 1 })

/-- Settlement of the stored promise with the pipeline run's outcome:
on success (`outcome = none`) the promise is retained and the response
is `{initialized: true, name: trigger}`; on a thrown error the
`initPromise` reference is cleared and the response is
`{initialized: false, name: trigger, error: {message}}`. -/
def gateComplete (trigger : String) (g : Gate) (outcome : Option String) :
    Gate × LazyResponse :=
  match outcome with
  | none => (g, ⟨true, trigger, none⟩)
  | some msg => ({ g with initPromise := none }, ⟨false, trigger, some msg⟩)

/-- One pipeline run of the lazy handler's try/catch body: the shared
`moduleStartup` sequence; a thrown error is caught and converted to the
structured failure response carrying `error.message`. -/
def lazyPipelineRun (env : Env) (fuel : Nat) (trigger : String) (m : Ctor)
    (md : Metadata) (cs : CState) : LazyResponse × CState :=
  match moduleStartup env fuel m md cs with
  | .ok cs' => (⟨true, trigger, none⟩, cs')
  | .error (e, cs') => (⟨false, trigger, some (errMessage e)⟩, cs')

/-!
## Bootstrap Orchestrator (bootstrap.ts)

Modelled from the spec for the lazy routing and duplicate-trigger
tracking: the bootstrap.ts in the repository snapshot predates lazy
support (its lazy-aware revision exists only through its tests,
e.g. "should not initialize lazy modules during bootstrap" and
"should throw DuplicateLazyTriggerError for duplicate lazy triggers").
Spec §4.6: lazy modules are detected and routed to the Lazy Activation
Gate instead of the eager path; §4.5: trigger validity is checked
eagerly at registration and duplicate trigger names across modules
registered in the same bootstrap call fail fatally.
-/

/-- Bootstrap-level state: the container plus the installed trigger
handlers (`ipcMain.handle` channels). -/
structure BootState where
  cstate : CState := {}
  gates : List (String × Gate) := []

/-- Modelled from the spec: gate registration for one lazy module —
validate the trigger (source: `getValidLazyTrigger`), fail on a
duplicate trigger name within this bootstrap call naming both modules,
else install an idle gate for the trimmed trigger.  No container state
is touched. -/
def registerLazyModule (m : Ctor) (md : Metadata) (b : BootState) :
    Except (Err × BootState) BootState :=
  match getValidLazyTrigger m md with
  | .error e => .error (e, b)
  | .ok trig =>
      match mlookup b.gates trig with
      | some g => .error (.duplicateLazyTrigger trig g.module.name m.name, b)
      | none => .ok { b with gates := aset b.gates trig ⟨m, none, 0⟩ }

/-- Modelled from the spec: one iteration of the bootstrap loop — fail
fatally on a missing `@RgModule` descriptor; route lazy modules to the
gate; run the eager startup sequence otherwise. -/
def bootstrapStep (env : Env) (fuel : Nat) (m : Ctor) (b : BootState) :
    Except (Err × BootState) BootState :=
  match env.rgMeta m with
  | none => .error (.moduleDecoratorMissing m.name, b)
  | some md =>
      if lazyEnabled md then registerLazyModule m md b
      else
        match moduleStartup env fuel m md b.cstate with
        | .ok cs' => .ok { b with cstate := cs' }
        | .error (e, cs') => .error (e, { b with cstate := cs' })

/-- `bootstrapModules`: the top-level loop, in caller order. -/
def bootstrapModules (env : Env) (fuel : Nat) : List Ctor → BootState →
    Except (Err × BootState) BootState
  | [], b => .ok b
  | m :: ms, b => do bootstrapModules env fuel ms (← bootstrapStep env fuel m b)

/-!
### Pipeline helper lemmas
-/

/-- A minimal module (empty providers list, no imports, windows, IPC
handlers, or reflected constructor dependencies) starts up in one run:
it is registered, its instance freshly constructed exactly once and
cached under the module token in both caches. -/
theorem moduleStartup_minimal (env : Env) (fuel : Nat) (m : Ctor) (md : Metadata)
    (cs : CState)
    (hval : validateLazyConstraints env m md = none)
    (hprovs : md.providers = some [])
    (himps : md.imports = none)
    (hwin : md.windows = none)
    (hipc : md.ipc = none)
    (hdeps : env.depTokens m = [])
    (hmod : mlookup cs.modules m = none)
    (hrcm : mlookup cs.resolutionCache (getCacheKey m (.cls m)) = none) :
    moduleStartup env (fuel + 1) m md cs
      = .ok { cs with
          modules := aset cs.modules m ⟨[], md.exports.getD []⟩,
          moduleMetadata := aset cs.moduleMetadata m md,
          instances := aset cs.instances (.cls m) (some cs.nextId),
          resolutionCache :=
            aset cs.resolutionCache (getCacheKey m (.cls m)) (some cs.nextId),
          nextId := cs.nextId + 1,
          ctorCount := aset cs.ctorCount m ((mlookup cs.ctorCount m).getD 0 + 1) } := by
  have h1 : initializeModule env (fuel + 1) m md cs
      = .ok { cs with
          modules := aset cs.modules m ⟨[], md.exports.getD []⟩,
          moduleMetadata := aset cs.moduleMetadata m md } := by
    rw [initializeModule, initializeModuleBody, hval, addModule, hmod]
    simp only [setModuleMetadata, registerProviders, hprovs, regProvList, himps,
      registerWindows, hwin, registerIpcHandlers, hipc, Option.getD, regImpList,
      Bind.bind, Except.bind]
    rfl
  have h2 : instantiateModule env (fuel + 1) m
      { cs with
        modules := aset cs.modules m ⟨[], md.exports.getD []⟩,
        moduleMetadata := aset cs.moduleMetadata m md }
      = .ok { cs with
          modules := aset cs.modules m ⟨[], md.exports.getD []⟩,
          moduleMetadata := aset cs.moduleMetadata m md,
          instances := aset cs.instances (.cls m) (some cs.nextId),
          nextId := cs.nextId + 1,
          ctorCount := aset cs.ctorCount m ((mlookup cs.ctorCount m).getD 0 + 1) } := by
    rw [instantiateModule, hdeps]
    rfl
  have h3 : resolveFuel env (fuel + 1)
      { cs with
        modules := aset cs.modules m ⟨[], md.exports.getD []⟩,
        moduleMetadata := aset cs.moduleMetadata m md,
        instances := aset cs.instances (.cls m) (some cs.nextId),
        nextId := cs.nextId + 1,
        ctorCount := aset cs.ctorCount m ((mlookup cs.ctorCount m).getD 0 + 1) }
      m (.cls m)
      = .ok (some cs.nextId,
          { cs with
            modules := aset cs.modules m ⟨[], md.exports.getD []⟩,
            moduleMetadata := aset cs.moduleMetadata m md,
            instances := aset cs.instances (.cls m) (some cs.nextId),
            resolutionCache :=
              aset cs.resolutionCache (getCacheKey m (.cls m)) (some cs.nextId),
            nextId := cs.nextId + 1,
            ctorCount := aset cs.ctorCount m ((mlookup cs.ctorCount m).getD 0 + 1) }) := by
    exact resolve_instances_hit env fuel _ m (.cls m) (some cs.nextId) hrcm
      (by simp)
  rw [moduleStartup]
  rw [h1]
  simp only [Bind.bind, Except.bind]
  rw [h2]
  simp only [Bind.bind, Except.bind]
  rw [h3]
  simp only [warnCheck, hwin, initializeIpcHandlers, hipc, Option.getD]
  simp

/-- `registerProviders`' loop succeeds on well-formed provider lists,
touches only module `m`'s registry entry, and keeps `m` registered. -/
theorem regProvList_preserves (m : Ctor) (ps : List ProvDecl) (st : CState)
    (hgood : ProvDecl.pbad ∉ ps) (hm : (mlookup st.modules m).isSome = true) :
    ∃ st', regProvList m ps st = .ok st'
      ∧ (∀ x, x ≠ m → mlookup st'.modules x = mlookup st.modules x)
      ∧ (mlookup st'.modules m).isSome = true := by
  induction ps generalizing st with
  | nil => exact ⟨st, rfl, fun _ _ => rfl, hm⟩
  | cons p rest ih =>
      have hgood' : ProvDecl.pbad ∉ rest := fun hr => hgood (List.mem_cons_of_mem p hr)
      rcases hmm : mlookup st.modules m with _ | d
      · rw [hmm] at hm
        simp at hm
      · rcases p with c | o | _
        · have hstep : addProvider m (.cls c) (.pclassEntry c) st
              = .ok { st with modules := aset st.modules m (ModuleData.mk (aset d.providers (.cls c) (.pclassEntry c)) d.exports) } := by
            rw [addProvider, hmm]
          obtain ⟨st', hrun, hpres, hm'⟩ := ih
            { st with modules := aset st.modules m (ModuleData.mk (aset d.providers (.cls c) (.pclassEntry c)) d.exports) }
            hgood' (by simp)
          refine ⟨st', ?_, ?_, hm'⟩
          · rw [regProvList, hstep]
            exact hrun
          · intro x hx
            rw [hpres x hx]
            simp [mlookup_aset_ne _ _ _ _ (Ne.symm hx)]
        · have hstep : addProvider m o.provide (.pobjEntry o) st
              = .ok { st with modules := aset st.modules m (ModuleData.mk (aset d.providers o.provide (.pobjEntry o)) d.exports) } := by
            rw [addProvider, hmm]
          obtain ⟨st', hrun, hpres, hm'⟩ := ih
            { st with modules := aset st.modules m (ModuleData.mk (aset d.providers o.provide (.pobjEntry o)) d.exports) }
            hgood' (by simp)
          refine ⟨st', ?_, ?_, hm'⟩
          · rw [regProvList, hstep]
            exact hrun
          · intro x hx
            rw [hpres x hx]
            simp [mlookup_aset_ne _ _ _ _ (Ne.symm hx)]
        · exact absurd (List.mem_cons_self _ _) hgood

/-!
### Claims on the bootstrap orchestrator and the lazy gate
-/

/-- **C1.** A lazy top-level module descriptor is routed to the Lazy
Activation Gate: the bootstrap step installs an idle gate (stored
promise `none`, zero pipeline runs) under the validated trigger and the
container state is untouched — no module registration, no provider
registration, no instantiation, no IPC-handler initialization, no side
effect of the module's initialization before its trigger fires. -/
theorem C1_bootstrap_routes_lazy (env : Env) (fuel : Nat) (m : Ctor)
    (md : Metadata) (b : BootState) (trig : String)
    (hmeta : env.rgMeta m = some md)
    (hlazy : lazyEnabled md = true)
    (htrig : getValidLazyTrigger m md = .ok trig)
    (hfresh : mlookup b.gates trig = none) :
    bootstrapStep env fuel m b
      = .ok { b with gates := aset b.gates trig ⟨m, none, 0⟩ }
    ∧ ({ b with gates := aset b.gates trig ⟨m, none, 0⟩ } : BootState).cstate
        = b.cstate
    ∧ mlookup (aset b.gates trig (⟨m, none, 0⟩ : Gate)) trig
        = some ⟨m, none, 0⟩ := by
  refine ⟨?_, rfl, by simp⟩
  rw [bootstrapStep, hmeta]
  simp only [hlazy, if_true]
  rw [registerLazyModule, htrig]
  simp only [hfresh]

/-- **C5.** Concurrent trigger invocations: a second invocation issued
while the first one's promise is stored returns the *same* promise and
changes nothing, so exactly one pipeline run is started; any settlement
function applied to the two returned promises gives equal results; and
the single pipeline run (for a minimal lazy module as in spec scenario
4) succeeds with exactly one constructor invocation of the module
class. -/
theorem C5_gate_single_flight (g : Gate) (env : Env) (fuel : Nat)
    (trig : String) (m : Ctor) (md : Metadata) (cs : CState)
    (hidle : g.initPromise = none)
    (hval : validateLazyConstraints env m md = none)
    (hprovs : md.providers = some [])
    (himps : md.imports = none)
    (hwin : md.windows = none)
    (hipc : md.ipc = none)
    (hdeps : env.depTokens m = [])
    (hmod : mlookup cs.modules m = none)
    (hrcm : mlookup cs.resolutionCache (getCacheKey m (.cls m)) = none) :
    (gateInvoke (gateInvoke g).2).1 = (gateInvoke g).1
    ∧ (gateInvoke (gateInvoke g).2).2 = (gateInvoke g).2
    ∧ (gateInvoke g).2.startedRuns = g.startedRuns + 1
    ∧ (∀ settle : Nat → LazyResponse,
        settle (gateInvoke (gateInvoke g).2).1 = settle (gateInvoke g).1)
    ∧ (lazyPipelineRun env (fuel + 1) trig m md cs).1 = ⟨true, trig, none⟩
    ∧ mlookup (lazyPipelineRun env (fuel + 1) trig m md cs).2.ctorCount m
        = some ((mlookup cs.ctorCount m).getD 0 + 1) := by
  have hrun := moduleStartup_minimal env fuel m md cs
    hval hprovs himps hwin hipc hdeps hmod hrcm
  refine ⟨?_, ?_, ?_, ?_, ?_, ?_⟩
  · simp [gateInvoke, hidle]
  · simp [gateInvoke, hidle]
  · simp [gateInvoke, hidle]
  · intro settle
    simp [gateInvoke, hidle]
  · rw [lazyPipelineRun, hrun]
  · rw [lazyPipelineRun, hrun]
    simp

/-- **C6.** Gate failure semantics: a pipeline error is caught and
converted to `{initialized: false, name: trigger, error: {message}}`
with the stored promise cleared, so the next invocation starts a fresh
run (retriable failure); on success the promise is retained, so the
next invocation returns it without starting a run (terminal success). -/
theorem C6_gate_retriable_failure (trig : String) (g : Gate) (msg : String)
    (p : Nat) (env : Env) (fuel : Nat) (m : Ctor) (md : Metadata)
    (cs cs' : CState) (e : Err)
    (hp : g.initPromise = some p)
    (herr : moduleStartup env fuel m md cs = .error (e, cs')) :
    gateComplete trig g (some msg)
      = ({ g with initPromise := none }, ⟨false, trig, some msg⟩)
    ∧ gateComplete trig g none = (g, ⟨true, trig, none⟩)
    ∧ (gateInvoke (gateComplete trig g (some msg)).1).2.startedRuns
        = g.startedRuns + 1
    ∧ gateInvoke g = (p, g)
    ∧ lazyPipelineRun env fuel trig m md cs
        = (⟨false, trig, some (errMessage e)⟩, cs') := by
  refine ⟨rfl, rfl, ?_, ?_, ?_⟩
  · simp [gateComplete, gateInvoke]
  · simp [gateInvoke, hp]
  · rw [lazyPipelineRun, herr]

/-!
### Fixtures and witnesses for the bootstrap/gate claims
-/

def cLz : Ctor := ⟨50, "Analytics"⟩

/-- Minimal lazy module descriptor with trigger `"analytics"` (spec
scenario 4). -/
def mdLz : Metadata := { providers := some [], lazy := some ⟨true, some "analytics"⟩ }

/-- Environment in which `Analytics` carries `mdLz` as its `@RgModule`
metadata. -/
def envLz : Env :=
  ⟨fun _ => [], fun c => if c = cLz then some mdLz else none,
    fun _ => none, fun _ => false⟩

/-- Witness for C1: bootstrapping the lazy `Analytics` module installs
an idle `"analytics"` gate and leaves the container untouched. -/
theorem C1_witness :
    envLz.rgMeta cLz = some mdLz
    ∧ lazyEnabled mdLz = true
    ∧ getValidLazyTrigger cLz mdLz = .ok "analytics"
    ∧ mlookup ({} : BootState).gates "analytics" = none
    ∧ (bootstrapStep envLz 1 cLz {}
        = .ok { ({} : BootState) with
            gates := aset ({} : BootState).gates "analytics" ⟨cLz, none, 0⟩ }
      ∧ ({ ({} : BootState) with
            gates := aset ({} : BootState).gates "analytics" ⟨cLz, none, 0⟩ }
          : BootState).cstate = ({} : BootState).cstate
      ∧ mlookup (aset ({} : BootState).gates "analytics" (⟨cLz, none, 0⟩ : Gate))
          "analytics" = some ⟨cLz, none, 0⟩) :=
  ⟨rfl, rfl, rfl, rfl,
    C1_bootstrap_routes_lazy envLz 1 cLz mdLz {} "analytics" rfl rfl rfl rfl⟩

/-- Witness for C5 at the idle `"analytics"` gate over the empty
container. -/
theorem C5_witness :
    (⟨cLz, none, 0⟩ : Gate).initPromise = none
    ∧ validateLazyConstraints envLz cLz mdLz = none
    ∧ mdLz.providers = some []
    ∧ mdLz.imports = none
    ∧ mdLz.windows = none
    ∧ mdLz.ipc = none
    ∧ envLz.depTokens cLz = []
    ∧ mlookup ({} : CState).modules cLz = none
    ∧ mlookup ({} : CState).resolutionCache (getCacheKey cLz (.cls cLz)) = none
    ∧ ((gateInvoke (gateInvoke ⟨cLz, none, 0⟩).2).1 = (gateInvoke ⟨cLz, none, 0⟩).1
      ∧ (gateInvoke (gateInvoke ⟨cLz, none, 0⟩).2).2 = (gateInvoke ⟨cLz, none, 0⟩).2
      ∧ (gateInvoke (⟨cLz, none, 0⟩ : Gate)).2.startedRuns
          = (⟨cLz, none, 0⟩ : Gate).startedRuns + 1
      ∧ (∀ settle : Nat → LazyResponse,
          settle (gateInvoke (gateInvoke ⟨cLz, none, 0⟩).2).1
            = settle (gateInvoke ⟨cLz, none, 0⟩).1)
      ∧ (lazyPipelineRun envLz 1 "analytics" cLz mdLz {}).1
          = ⟨true, "analytics", none⟩
      ∧ mlookup (lazyPipelineRun envLz 1 "analytics" cLz mdLz {}).2.ctorCount cLz
          = some ((mlookup ({} : CState).ctorCount cLz).getD 0 + 1)) :=
  ⟨rfl, rfl, rfl, rfl, rfl, rfl, rfl, rfl, rfl,
    C5_gate_single_flight ⟨cLz, none, 0⟩ envLz 0 "analytics" cLz mdLz {}
      rfl rfl rfl rfl rfl rfl rfl rfl rfl⟩

def cBad : Ctor := ⟨51, "Bad"⟩

/-- A descriptor whose providers array holds an invalid entry, making
the registration pipeline throw `InvalidProviderError`. -/
def mdBad : Metadata := { providers := some [.pbad] }

/-- The state at the `InvalidProviderError` throw inside `Bad`'s
startup: the module entry and its metadata are registered, nothing
else. -/
def stBadErr : CState :=
  { modules := aset ([] : List (Ctor × ModuleData)) cBad (ModuleData.mk [] []),
    moduleMetadata := aset ([] : List (Ctor × Metadata)) cBad mdBad }

/-- Witness for C6: a gate holding promise `0`, and the `Bad` module
whose pipeline run throws `InvalidProviderError`. -/
theorem C6_witness :
    (⟨cBad, some 0, 1⟩ : Gate).initPromise = some 0
    ∧ moduleStartup envLz 1 cBad mdBad {}
        = .error (.invalidProvider "Bad", stBadErr)
    ∧ (gateComplete "payments" ⟨cBad, some 0, 1⟩ (some "boom")
        = ({ (⟨cBad, some 0, 1⟩ : Gate) with initPromise := none },
            ⟨false, "payments", some "boom"⟩)
      ∧ gateComplete "payments" ⟨cBad, some 0, 1⟩ none
          = (⟨cBad, some 0, 1⟩, ⟨true, "payments", none⟩)
      ∧ (gateInvoke (gateComplete "payments" ⟨cBad, some 0, 1⟩ (some "boom")).1).2.startedRuns
          = (⟨cBad, some 0, 1⟩ : Gate).startedRuns + 1
      ∧ gateInvoke ⟨cBad, some 0, 1⟩ = (0, ⟨cBad, some 0, 1⟩)
      ∧ lazyPipelineRun envLz 1 "payments" cBad mdBad {}
          = (⟨false, "payments", some (errMessage (.invalidProvider "Bad"))⟩,
              stBadErr)) :=
  ⟨rfl, rfl,
    C6_gate_retriable_failure "payments" ⟨cBad, some 0, 1⟩ "boom" 0 envLz 1
      cBad mdBad {} stBadErr (.invalidProvider "Bad") rfl rfl⟩

/-- **C8.** Lazy-trigger registration validates eagerly: a trigger that
is not a non-empty string after trimming fails the bootstrap step
fatally with `InvalidLazyTrigger` and the bootstrap state (container
included) is untouched; two lazy modules with the same (trimmed)
trigger in one bootstrap call fail fatally with `DuplicateLazyTrigger`
naming the trigger and both modules, again with the container
untouched — in both cases before any resolution occurs. -/
theorem C8_trigger_validation (env : Env) (fuel : Nat)
    (m0 m1 m2 : Ctor) (md0 md1 md2 : Metadata) (cfg0 : LazyCfg) (s0 : String)
    (trig : String) (b : BootState)
    (hmeta0 : env.rgMeta m0 = some md0)
    (hlz0 : lazyEnabled md0 = true)
    (hcfg0 : md0.lazy = some cfg0)
    (htr0 : cfg0.trigger = some s0)
    (hempty : (jsTrim s0).length = 0)
    (hmeta1 : env.rgMeta m1 = some md1) (hlz1 : lazyEnabled md1 = true)
    (htrig1 : getValidLazyTrigger m1 md1 = .ok trig)
    (hmeta2 : env.rgMeta m2 = some md2) (hlz2 : lazyEnabled md2 = true)
    (htrig2 : getValidLazyTrigger m2 md2 = .ok trig)
    (hfresh : mlookup b.gates trig = none) :
    bootstrapStep env fuel m0 b = .error (.invalidLazyTrigger m0.name, b)
    ∧ bootstrapModules env fuel [m1, m2] b
        = .error (.duplicateLazyTrigger trig m1.name m2.name,
            { b with gates := aset b.gates trig ⟨m1, none, 0⟩ }) := by
  constructor
  · have h0 : getValidLazyTrigger m0 md0 = .error (.invalidLazyTrigger m0.name) := by
      rw [getValidLazyTrigger, hcfg0]
      simp only [htr0, hempty, if_pos]
    rw [bootstrapStep, hmeta0]
    simp only [hlz0, if_true]
    rw [registerLazyModule, h0]
  · have hstep1 : bootstrapStep env fuel m1 b
        = .ok { b with gates := aset b.gates trig ⟨m1, none, 0⟩ } := by
      rw [bootstrapStep, hmeta1]
      simp only [hlz1, if_true]
      rw [registerLazyModule, htrig1]
      simp only [hfresh]
    have hstep2 : bootstrapStep env fuel m2
        { b with gates := aset b.gates trig ⟨m1, none, 0⟩ }
        = .error (.duplicateLazyTrigger trig m1.name m2.name,
            { b with gates := aset b.gates trig ⟨m1, none, 0⟩ }) := by
      rw [bootstrapStep, hmeta2]
      simp only [hlz2, if_true]
      rw [registerLazyModule, htrig2]
      simp only [mlookup_aset_self]
    simp only [bootstrapModules, Bind.bind, Except.bind]
    rw [hstep1]
    simp only [hstep2]

/-- **C7 (amended).** The lazy structural constraints at registration:
a lazy module with non-empty exports and a lazy module importing a lazy
module abort `initializeModule` with the named error and the container
state entirely unchanged (no partial state); an eager module importing
a lazy module aborts with `EagerModuleCannotImportLazyModule` naming
both modules *before the lazy import is registered* — the lazy module
has no registry entry and no providers in the error state — but after
the importing module's own registration and provider registration have
already mutated the registry. -/
theorem C7_registration_validation_amended (env : Env) (fuel : Nat) (st : CState)
    (m1 : Ctor) (md1 : Metadata)
    (m2 mj : Ctor) (md2 mdj : Metadata) (rest2 : List Ctor)
    (m3 mk : Ctor) (md3 mdk : Metadata) (ps3 : List ProvDecl) (rest3 : List Ctor)
    (hl1 : lazyEnabled md1 = true)
    (he1 : 0 < (md1.exports.getD []).length)
    (hl2 : lazyEnabled md2 = true)
    (he2 : (md2.exports.getD []).length = 0)
    (hi2 : md2.imports = some (mj :: rest2))
    (hmj : env.rgMeta mj = some mdj)
    (hlj : lazyEnabled mdj = true)
    (hl3 : lazyEnabled md3 = false)
    (hp3 : md3.providers = some ps3)
    (hgood : ProvDecl.pbad ∉ ps3)
    (hi3 : md3.imports = some (mk :: rest3))
    (hmk : env.rgMeta mk = some mdk)
    (hlk : lazyEnabled mdk = true)
    (hm3 : mlookup st.modules m3 = none)
    (hmknew : mlookup st.modules mk = none)
    (hne3 : mk ≠ m3) :
    initializeModule env (fuel + 1) m1 md1 st
        = .error (.lazyModuleExportsNotAllowed m1.name, st)
    ∧ initializeModule env (fuel + 1) m2 md2 st
        = .error (.lazyModuleCannotImportLazyModule m2.name mj.name, st)
    ∧ ∃ stE, initializeModule env (fuel + 1) m3 md3 st
          = .error (.eagerModuleCannotImportLazyModule m3.name mk.name, stE)
        ∧ mlookup stE.modules mk = none
        ∧ ∀ t', getProvider stE mk t' = none := by
  refine ⟨?_, ?_, ?_⟩
  · have hv : validateLazyConstraints env m1 md1
        = some (.lazyModuleExportsNotAllowed m1.name) := by
      rw [validateLazyConstraints]
      simp [hl1, he1]
    rw [initializeModule, initializeModuleBody, hv]
  · have hv : validateLazyConstraints env m2 md2
        = some (.lazyModuleCannotImportLazyModule m2.name mj.name) := by
      rw [validateLazyConstraints]
      simp [hl2, he2, hi2, findLazyImport, hmj, hlj]

    rw [initializeModule, initializeModuleBody, hv]
  · have hv : validateLazyConstraints env m3 md3 = none := by
      simp [validateLazyConstraints, hl3]
    have haddm : addModule m3 md3 st
        = (true, { st with modules := aset st.modules m3 (ModuleData.mk [] (md3.exports.getD [])) }) := by
      rw [addModule, hm3]
    obtain ⟨st', hrun, hpres, hm'⟩ := regProvList_preserves m3 ps3
      { st with
        modules := aset st.modules m3 (ModuleData.mk [] (md3.exports.getD [])),
        moduleMetadata := aset st.moduleMetadata m3 md3 }
      hgood (by simp)
    have hmk' : mlookup st'.modules mk = none := by
      rw [hpres mk hne3]
      simp only [mlookup_aset_ne _ _ _ _ (Ne.symm hne3)]
      exact hmknew
    refine ⟨st', ?_, hmk', ?_⟩
    · rw [initializeModule, initializeModuleBody, hv]
      have himp3 : md3.imports.getD [] = mk :: rest3 := by rw [hi3]; rfl
      simp only [haddm, setModuleMetadata, registerProviders, hp3, himp3,
        Bind.bind, Except.bind]
      rw [if_neg (by simp : ¬ (true = false))]
      rw [hrun]
      simp only [regImpList, hmk, hlk, hl3]
      simp
    · intro t'
      rw [getProvider, hmk']

/-!
### Fixtures and witnesses for C7/C8
-/

def cE : Ctor := ⟨30, "E"⟩
def cL : Ctor := ⟨31, "L"⟩
def cQ : Ctor := ⟨32, "Q"⟩

/-- Lazy module `L` with trigger `"lz"`. -/
def mdL7 : Metadata := { lazy := some ⟨true, some "lz"⟩ }

/-- Eager module `E`: provides class `Q`, imports the lazy `L`. -/
def mdE7 : Metadata := { imports := some [cL], providers := some [.pfun cQ] }

/-- Lazy module with a non-empty export list (violates the first lazy
constraint). -/
def mdLE7 : Metadata :=
  { exports := some [.cls cQ], lazy := some ⟨true, some "x"⟩ }

/-- Lazy module importing the lazy `L` (violates the second lazy
constraint). -/
def mdLL7 : Metadata :=
  { imports := some [cL], lazy := some ⟨true, some "y"⟩ }

def env7 : Env :=
  ⟨fun _ => [],
    fun c => if c = cE then some mdE7 else if c = cL then some mdL7 else none,
    fun _ => none, fun _ => false⟩

/-- The container state at the `EagerModuleCannotImportLazyModule` throw
while registering `E` on an empty container: `E`'s registry entry,
metadata, *and its provider `Q`* are already present. -/
def st7err : CState :=
  { modules := aset (aset ([] : List (Ctor × ModuleData)) cE (ModuleData.mk [] []))
      cE (ModuleData.mk (aset ([] : List (Token × PEntry)) (.cls cQ) (.pclassEntry cQ)) []),
    moduleMetadata := aset ([] : List (Ctor × Metadata)) cE mdE7 }

/-- **C7 counterexample.** Registering the eager module `E` (which
imports the lazy `L`) fails with the named constraint error, but *not*
"before any provider of that module is added": at the moment of the
throw, `E`'s provider `Q` is already in the registry — partial state
has entered the registry, contradicting the claim as stated. -/
theorem C7_counterexample :
    lazyEnabled mdE7 = false
    ∧ initializeModule env7 2 cE mdE7 {}
        = .error (.eagerModuleCannotImportLazyModule "E" "L", st7err)
    ∧ getProvider st7err cE (.cls cQ) = some (.pclassEntry cQ) :=
  ⟨rfl, rfl, rfl⟩

/-- Witness for the amended C7 at concrete modules over the empty
container. -/
theorem C7_amended_witness :
    lazyEnabled mdLE7 = true
    ∧ 0 < (mdLE7.exports.getD []).length
    ∧ lazyEnabled mdLL7 = true
    ∧ (mdLL7.exports.getD []).length = 0
    ∧ mdLL7.imports = some (cL :: [])
    ∧ env7.rgMeta cL = some mdL7
    ∧ lazyEnabled mdL7 = true
    ∧ lazyEnabled mdE7 = false
    ∧ mdE7.providers = some [.pfun cQ]
    ∧ ProvDecl.pbad ∉ [ProvDecl.pfun cQ]
    ∧ mdE7.imports = some (cL :: [])
    ∧ mlookup ({} : CState).modules cE = none
    ∧ mlookup ({} : CState).modules cL = none
    ∧ cL ≠ cE
    ∧ (initializeModule env7 1 ⟨33, "LE"⟩ mdLE7 {}
          = .error (.lazyModuleExportsNotAllowed "LE", {})
      ∧ initializeModule env7 1 ⟨34, "LL"⟩ mdLL7 {}
          = .error (.lazyModuleCannotImportLazyModule "LL" cL.name, {})
      ∧ ∃ stE, initializeModule env7 1 cE mdE7 {}
            = .error (.eagerModuleCannotImportLazyModule cE.name cL.name, stE)
          ∧ mlookup stE.modules cL = none
          ∧ ∀ t', getProvider stE cL t' = none) :=
  ⟨rfl, by decide, rfl, rfl, rfl, rfl, rfl, rfl, rfl, by simp, rfl, rfl, rfl,
    by decide,
    C7_registration_validation_amended env7 0 {} ⟨33, "LE"⟩ mdLE7
      ⟨34, "LL"⟩ cL mdLL7 mdL7 [] cE cL mdE7 mdL7 [ProvDecl.pfun cQ] []
      rfl (by decide) rfl rfl rfl rfl rfl rfl rfl (by simp) rfl rfl rfl rfl rfl
      (by decide)⟩

def cLzBad : Ctor := ⟨52, "LzBad"⟩

/-- Lazy descriptor whose trigger is whitespace only. -/
def mdLzBad : Metadata := { lazy := some ⟨true, some "   "⟩ }

def cLzB : Ctor := ⟨54, "LzB"⟩

/-- Second lazy module whose trigger trims to the same `"analytics"`. -/
def mdLzB : Metadata :=
  { providers := some [], lazy := some ⟨true, some " analytics "⟩ }

def env8 : Env :=
  ⟨fun _ => [],
    fun c =>
      if c = cLzBad then some mdLzBad
      else if c = cLz then some mdLz
      else if c = cLzB then some mdLzB
      else none,
    fun _ => none, fun _ => false⟩

/-- Witness for C8: whitespace trigger fails `InvalidLazyTrigger`;
`Analytics` (`"analytics"`) and `LzB` (`" analytics "`) collide with
`DuplicateLazyTrigger`. -/
theorem C8_witness :
    env8.rgMeta cLzBad = some mdLzBad
    ∧ lazyEnabled mdLzBad = true
    ∧ mdLzBad.lazy = some ⟨true, some "   "⟩
    ∧ (⟨true, some "   "⟩ : LazyCfg).trigger = some "   "
    ∧ (jsTrim "   ").length = 0
    ∧ env8.rgMeta cLz = some mdLz
    ∧ lazyEnabled mdLz = true
    ∧ getValidLazyTrigger cLz mdLz = .ok "analytics"
    ∧ env8.rgMeta cLzB = some mdLzB
    ∧ lazyEnabled mdLzB = true
    ∧ getValidLazyTrigger cLzB mdLzB = .ok "analytics"
    ∧ mlookup ({} : BootState).gates "analytics" = none
    ∧ (bootstrapStep env8 1 cLzBad {}
          = .error (.invalidLazyTrigger cLzBad.name, {})
      ∧ bootstrapModules env8 1 [cLz, cLzB] {}
          = .error (.duplicateLazyTrigger "analytics" cLz.name cLzB.name,
              { ({} : BootState) with
                gates := aset ({} : BootState).gates "analytics" ⟨cLz, none, 0⟩ })) :=
  ⟨rfl, rfl, rfl, rfl, rfl, rfl, rfl, rfl, rfl, rfl, rfl, rfl,
    C8_trigger_validation env8 1 cLzBad cLz cLzB mdLzBad mdLz mdLzB
      ⟨true, some "   "⟩ "   " "analytics" {}
      rfl rfl rfl rfl rfl rfl rfl rfl rfl rfl rfl rfl⟩

end ElectronModular
